import Mathlib

/-!
Verification of the background-job subsystem of the simulated stock-exchange
backend (`src/backend/src/app`): the price-tick job, the snapshot/ranking job
with its market open/after-hours state machine and retention cleanup, the AI
task pipeline, the provider-fallback text client, and the websocket broadcast
sink.

The Python code is shallowly embedded: prices, timestamps and durations become
rationals (the source uses Python floats; we verify the real-number algorithm),
database rows become records, stateful loops become list transformations, the
random draw of `random.uniform` becomes an oracle constrained by the interval
it is drawn from, external AI providers and websocket sends become `Except`
valued oracles, and raised/caught Python exceptions become `Except` values.
-/

namespace SchoenMachtGeld

open scoped List

/-! ## Data model

`Stock`, `MarketState`, `StockSnapshot`, `PriceEvent` and `AITask` mirror the
fields of the ORM models that the scheduler reads and writes
(`src/backend/src/app/scheduler.py`).  The checked-in `models/stock.py` is an
older revision that predates the scheduler; the fields below follow the
scheduler's accesses and the spec's data-model section. -/

/-- A `datetime` value: `aware` records whether it carries timezone
information, `utc` is its instant on the UTC timeline (naive datetimes are
interpreted as UTC, matching `created.replace(tzinfo=UTC)`). -/
structure PyDatetime where
  aware : Bool
  utc : ℚ
  deriving Repr, DecidableEq

/-- `datetime.replace(tzinfo=UTC)` applied when `tzinfo is None`: the instant
is unchanged under the naive-means-UTC reading. -/
def normalizeUTC (d : PyDatetime) : PyDatetime :=
  if d.aware then d else { d with aware := true }

structure Stock where
  ticker : String
  price : ℚ
  max_price : Option ℚ := none
  min_price : Option ℚ := none
  reference_price : Option ℚ := none
  reference_price_at : Option ℚ := none
  rank : Option Nat := none
  change_rank : Option Nat := none
  previous_rank : Option Nat := none
  previous_change_rank : Option Nat := none
  is_active : Bool := true
  updated_at : ℚ := 0
  deriving Repr, DecidableEq

/-- Modelled from the spec: the `Stock.percentage_change` property of the
current data model is not in the checked-in (older) `models/stock.py`.  Per the
spec it is the change relative to `reference_price` and is undefined when no
reference price is set; only definedness and relative order are used by the
ranking pass. -/
def Stock.percentage_change (s : Stock) : Option ℚ :=
  match s.reference_price with
  | none => none
  | some r => some ((s.price - r) / r * 100)

inductive ChangeType where
  | INITIAL | RANDOM | ADMIN | SWIPE
  deriving Repr, DecidableEq

structure PriceEvent where
  ticker : String
  price : ℚ
  change_type : ChangeType
  deriving Repr, DecidableEq

structure StockSnapshot where
  id : Nat
  ticker : String
  price : ℚ
  created_at : ℚ
  deriving Repr, DecidableEq

structure MarketState where
  is_open : Bool := false
  market_day_count : Nat := 0
  snapshot_count : Nat := 0
  after_hours_snapshot_count : Nat := 0
  updated_at : ℚ := 0
  deriving Repr, DecidableEq

/-- Modelled from the spec: the checked-in `config.py` is an older revision;
these are the configuration options the spec lists as recognized and the
scheduler reads. -/
structure Settings where
  after_hours_volatility_multiplier : ℚ := 1
  snapshots_per_market_day : Nat := 1
  after_hours_snapshots : Nat := 0
  snapshot_retention : Nat := 0
  ai_task_timeout : ℚ := 0
  force_google_ai : Bool := false
  atlascloud_api_key : Option String := none
  google_ai_api_key : Option String := none
  deriving Repr, DecidableEq

/-- Python truthiness of an `Optional[str]`: `None` and `""` are falsy. -/
def truthy : Option String → Bool
  | none => false
  | some s => !(s == "")

/-! ## Price Tick Engine (`tick_prices`, scheduler.py lines 85-137) -/

/-- `volatility_multiplier` selection in `tick_prices`: the configured
after-hours multiplier when the market is closed, `1.0` when it is open. -/
def volatility_multiplier (settings : Settings) (market_state : MarketState) : ℚ :=
  if !market_state.is_open then settings.after_hours_volatility_multiplier else 1

/-- `max_delta = stock.price * 0.05 * volatility_multiplier`; the random delta
is drawn uniformly from `[-max_delta, max_delta]`. -/
def tick_max_delta (mult : ℚ) (s : Stock) : ℚ :=
  s.price * (5 / 100) * mult

/-- `if stock.max_price is None or new_price > stock.max_price`. -/
def bumpMax (new_price : ℚ) : Option ℚ → Option ℚ
  | none => some new_price
  | some m => if m < new_price then some new_price else some m

/-- `if stock.min_price is None or new_price < stock.min_price`. -/
def bumpMin (new_price : ℚ) : Option ℚ → Option ℚ
  | none => some new_price
  | some m => if new_price < m then some new_price else some m

/-- Body of the per-stock loop of `tick_prices`; `delta` is the oracle for
`random.uniform(-max_delta, max_delta)` (the bound `tick_max_delta` becomes a
hypothesis on the oracle). -/
def tickStock (now delta : ℚ) (s : Stock) : Stock :=
  let new_price := max 0 (s.price + delta)
  { s with
    price := new_price
    updated_at := now
    max_price := bumpMax new_price s.max_price
    min_price := bumpMin new_price s.min_price }

/-- `tick_prices`: returns the updated active stocks and the `PriceEvent` rows
appended, all committed as one batch.  `deltas` lists the oracle values of the
successive `random.uniform(-max_delta, max_delta)` draws, whose bound
`tick_max_delta (volatility_multiplier settings market_state) stock` becomes a
hypothesis in the theorems. -/
def tick_prices (now : ℚ) (deltas : List ℚ) (stocks : List Stock) :
    List Stock × List PriceEvent :=
  let updated := List.zipWith (fun delta s => tickStock now delta s) deltas stocks
  (updated, updated.map fun s =>
    { ticker := s.ticker, price := s.price, change_type := ChangeType.RANDOM })

/-! ## Ranking pass (`_update_rankings`, scheduler.py lines 264-286) -/

/-- `change_sort_key`: `(1, 0.0)` when `percentage_change` is undefined (sorts
last), `(0, -pct)` when defined (sorts by change descending). -/
def change_sort_key (s : Stock) : Nat × ℚ :=
  match s.percentage_change with
  | none => (1, 0)
  | some pct => (0, -pct)

/-- Lexicographic order on `change_sort_key` values, as Python tuple
comparison. -/
def keyLe (a b : Nat × ℚ) : Prop :=
  a.1 < b.1 ∨ (a.1 = b.1 ∧ a.2 ≤ b.2)

instance : ∀ a b, Decidable (keyLe a b) := fun a b => by
  unfold keyLe
  infer_instance

/-- `sorted(stocks, key=lambda s: s.price, reverse=True)` comparison: Python's
`sorted` is stable, and a stable sort by a total preorder has a unique output,
so the stable `List.insertionSort` by this relation models it exactly. -/
def priceDescLe (a b : Stock) : Prop :=
  b.price ≤ a.price

instance : ∀ a b, Decidable (priceDescLe a b) := fun a b => by
  unfold priceDescLe
  infer_instance

instance : IsTotal Stock priceDescLe :=
  ⟨fun a b => le_total b.price a.price⟩

instance : IsTrans Stock priceDescLe :=
  ⟨fun _ _ _ h1 h2 => le_trans h2 h1⟩

/-- `sorted(stocks, key=change_sort_key)` comparison. -/
def changeLe (a b : Stock) : Prop :=
  keyLe (change_sort_key a) (change_sort_key b)

instance : ∀ a b, Decidable (changeLe a b) := fun a b => by
  unfold changeLe
  infer_instance

instance : IsTotal Stock changeLe := ⟨fun a b => by
  unfold changeLe keyLe
  rcases lt_trichotomy (change_sort_key a).1 (change_sort_key b).1 with h | h | h
  · exact Or.inl (Or.inl h)
  · rcases le_total (change_sort_key a).2 (change_sort_key b).2 with h2 | h2
    · exact Or.inl (Or.inr ⟨h, h2⟩)
    · exact Or.inr (Or.inr ⟨h.symm, h2⟩)
  · exact Or.inr (Or.inl h)⟩

instance : IsTrans Stock changeLe := ⟨fun a b c h1 h2 => by
  unfold changeLe keyLe at h1 h2 ⊢
  rcases h1 with h1 | ⟨e1, le1⟩
  · rcases h2 with h2 | ⟨e2, _⟩
    · exact Or.inl (h1.trans h2)
    · exact Or.inl (e2 ▸ h1)
  · rcases h2 with h2 | ⟨e2, le2⟩
    · exact Or.inl (e1 ▸ h2)
    · exact Or.inr ⟨e1.trans e2, le1.trans le2⟩⟩

/-- 1-based position of the stock with ticker `s.ticker` in a sorted list:
models `for i, stock in enumerate(sorted_list, start=1): stock.rank = i`,
with the mutated object identified by its ticker (the primary key). -/
def rankWithin (sorted_list : List Stock) (s : Stock) : Nat :=
  sorted_list.findIdx (fun t => t.ticker == s.ticker) + 1

/-- First step of `_update_rankings`: save current ranks as previous ranks. -/
def save_previous_ranks (stocks : List Stock) : List Stock :=
  stocks.map fun s =>
    { s with previous_rank := s.rank, previous_change_rank := s.change_rank }

/-- Second step: `stocks_by_price = sorted(stocks, key=price, reverse=True)`
and `stock.rank = i` for the enumeration of that order. -/
def with_price_ranks (stocks1 : List Stock) : List Stock :=
  stocks1.map fun s =>
    { s with rank := some (rankWithin (List.insertionSort priceDescLe stocks1) s) }

/-- Third step: `stocks_by_change = sorted(stocks, key=change_sort_key)` and
`stock.change_rank = i` for the enumeration of that order. -/
def with_change_ranks (stocks2 : List Stock) : List Stock :=
  stocks2.map fun s =>
    { s with change_rank := some (rankWithin (List.insertionSort changeLe stocks2) s) }

/-- `_update_rankings`: saves current ranks to previous ranks, assigns `rank`
by price descending and `change_rank` by `change_sort_key`, via stable sorts
(Python's `sorted` is stable; `List.insertionSort` is the stable sort here). -/
def _update_rankings (stocks : List Stock) : List Stock :=
  with_change_ranks (with_price_ranks (save_previous_ranks stocks))

/-! ## Snapshot & Ranking Engine (`snapshot_prices`, scheduler.py lines 140-261) -/

/-- Reset of a stock's reference baseline, as performed at each market-open
transition: `reference_price`, `reference_price_at`, `max_price`, `min_price`
set from the current price and `now`. -/
def resetReference (now : ℚ) (s : Stock) : Stock :=
  { s with
    reference_price := some s.price
    reference_price_at := some now
    max_price := some s.price
    min_price := some s.price }

/-- Result of the store mutations committed by one `snapshot_prices`
invocation: the updated stocks, the updated market state, and the
`StockSnapshot` rows created (ids are assigned by the store and irrelevant
here, recorded as 0). -/
structure SnapshotResult where
  stocks : List Stock
  market_state : MarketState
  snapshots : List StockSnapshot
  deriving Repr, DecidableEq

/-- The computation `snapshot_prices` commits (scheduler.py lines 163-245):
ranking pass, initial-bootstrap branch, snapshot creation, and the market
open/after-hours state machine.  Broadcast, event detection and retention
cleanup follow the commit and are modelled separately (`snapshot_tail`,
`_cleanup_old_snapshots`). -/
def snapshot_prices (settings : Settings) (market_state : MarketState)
    (now : ℚ) (stocks : List Stock) : SnapshotResult :=
  let stocks1 := _update_rankings stocks
  -- Handle very first market open (when starting fresh)
  let bootstrap := market_state.market_day_count == 0 &&
    market_state.snapshot_count == 0 && !market_state.is_open
  let ms1 := if bootstrap then { market_state with is_open := true } else market_state
  let stocks2 := if bootstrap then stocks1.map (resetReference now) else stocks1
  -- Create snapshots for all stocks
  let snapshots := stocks2.map fun s =>
    { id := 0, ticker := s.ticker, price := s.price, created_at := now }
  -- Update market state based on current phase
  let ms2 := { ms1 with updated_at := now }
  if ms2.is_open then
    let ms3 := { ms2 with snapshot_count := ms2.snapshot_count + 1 }
    if settings.snapshots_per_market_day ≤ ms3.snapshot_count then
      let ms4 := { ms3 with
        market_day_count := ms3.market_day_count + 1
        snapshot_count := 0
        is_open := false
        after_hours_snapshot_count := 0 }
      if settings.after_hours_snapshots == 0 then
        { stocks := stocks2.map (resetReference now)
          market_state := { ms4 with is_open := true }
          snapshots := snapshots }
      else
        { stocks := stocks2, market_state := ms4, snapshots := snapshots }
    else
      { stocks := stocks2, market_state := ms3, snapshots := snapshots }
  else
    let ms3 := { ms2 with
      after_hours_snapshot_count := ms2.after_hours_snapshot_count + 1 }
    if settings.after_hours_snapshots ≤ ms3.after_hours_snapshot_count then
      { stocks := stocks2.map (resetReference now)
        market_state := { ms3 with is_open := true, after_hours_snapshot_count := 0 }
        snapshots := snapshots }
    else
      { stocks := stocks2, market_state := ms3, snapshots := snapshots }

/-! ## Retention cleanup (`_cleanup_old_snapshots`, scheduler.py lines 289-318) -/

/-- `row_number() OVER (PARTITION BY ticker ORDER BY created_at DESC)`
comparison. -/
def createdDescLe (a b : StockSnapshot) : Prop :=
  b.created_at ≤ a.created_at

instance : ∀ a b, Decidable (createdDescLe a b) := fun a b => by
  unfold createdDescLe
  infer_instance

instance : IsTotal StockSnapshot createdDescLe :=
  ⟨fun a b => le_total b.created_at a.created_at⟩

instance : IsTrans StockSnapshot createdDescLe :=
  ⟨fun _ _ _ h1 h2 => le_trans h2 h1⟩

/-- The partition of the snapshot table belonging to one ticker. -/
def ticker_rows (rows : List StockSnapshot) (t : String) : List StockSnapshot :=
  rows.filter (fun r => r.ticker == t)

/-- The window-function rank `rn` of row `r`: its 1-based position in its
ticker's partition ordered by `created_at` descending (ties resolved
deterministically by the stable sort; rows are identified by their primary-key
`id`). -/
def row_number (rows : List StockSnapshot) (r : StockSnapshot) : Nat :=
  (List.insertionSort createdDescLe (ticker_rows rows r.ticker)).findIdx
    (fun x => x.id == r.id) + 1

/-- `_cleanup_old_snapshots`: delete every snapshot row whose window rank
exceeds `retention`; the surviving table is returned. -/
def _cleanup_old_snapshots (retention : Nat) (rows : List StockSnapshot) :
    List StockSnapshot :=
  rows.filter (fun r => row_number rows r ≤ retention)

/-! ## Provider Fallback Client (`AIClient.generate_text`, services/ai.py) -/

/-- Outcome of `generate_text` together with the providers that were actually
attempted (i.e. whose `generate_text` was called), in call order. -/
structure GenerateTextTrace where
  outcome : Except String String
  attempted : List String
  deriving Repr

/-- The final `raise` of `generate_text` when no provider returned: either
"not configured" (no provider was attempted, `errors` empty) or the aggregated
error listing each attempted provider's failure. -/
def generate_text_failure (errors : List String) : Except String String :=
  if errors.isEmpty then
    Except.error "No AI providers configured (check API keys in .env)"
  else
    Except.error ("All AI providers failed: " ++ String.intercalate "; " errors)

/-- `AIClient.generate_text` (services/ai.py lines 19-65): tries AtlasCloud
first unless `force_google_ai` is set or its key is unconfigured; on failure
records the error and falls through to Google AI if configured.  The provider
calls are oracles: `atlas` and `google` are the results the respective
provider would return (`Except.error` models the provider exception). -/
def generate_text (settings : Settings)
    (atlas google : Except String String) : GenerateTextTrace :=
  -- Try AtlasCloud first (unless forced to use Google)
  let primary : Option String × List String × List String :=
    if !settings.force_google_ai && truthy settings.atlascloud_api_key then
      match atlas with
      | Except.ok r => (some r, [], ["atlascloud"])
      | Except.error e => (none, ["AtlasCloud: " ++ e], ["atlascloud"])
    else (none, [], [])
  match primary with
  | (some r, _, att) => { outcome := Except.ok r, attempted := att }
  | (none, errors, att) =>
    -- Fallback to Google AI
    if truthy settings.google_ai_api_key then
      match google with
      | Except.ok r => { outcome := Except.ok r, attempted := att ++ ["google"] }
      | Except.error e =>
        { outcome := generate_text_failure (errors ++ ["Google AI: " ++ e])
          attempted := att ++ ["google"] }
    else
      { outcome := generate_text_failure errors, attempted := att }

/-! ## AI Task Pipeline (`process_ai_tasks` / `_poll_task`, scheduler.py
lines 321-435) -/

inductive TaskStatus where
  | PENDING | PROCESSING | COMPLETED | FAILED
  deriving Repr, DecidableEq

inductive TaskType where
  | DESCRIPTION | IMAGE | VIDEO
  deriving Repr, DecidableEq

structure AITask where
  id : Nat
  task_type : TaskType
  status : TaskStatus
  prompt : String := ""
  atlascloud_id : Option String := none
  result : Option String := none
  error : Option String := none
  created_at : PyDatetime
  completed_at : Option ℚ := none
  deriving Repr, DecidableEq

/-- Oracle for one `ai.get_task_status(task.atlascloud_id)` call: the
`(status, outputs, error)` triple the provider would report. -/
structure ProviderPoll where
  status : Option String
  outputs : Option (List String)
  error : Option String
  deriving Repr, DecidableEq

/-- Result of `_poll_task` on one task: the updated task, whether the provider
was actually polled (`ai.get_task_status` called), and the output URLs passed
to `_download_result`. -/
structure PollResult where
  task : AITask
  polled : Bool
  downloads : List String
  deriving Repr, DecidableEq

/-- `_poll_task` (scheduler.py lines 392-435).  `download` is the oracle for
`_download_result task url` (the local path the media is stored at).  The
timeout check normalizes a timezone-naive `created_at` to UTC before
computing the elapsed seconds. -/
def _poll_task (settings : Settings) (now : ℚ)
    (poll : ProviderPoll) (download : String → Option String)
    (t : AITask) : PollResult :=
  if !(truthy t.atlascloud_id) then
    { task := { t with status := TaskStatus.FAILED, error := some "No external task ID" }
      polled := false, downloads := [] }
  else
    -- Check timeout (handle both naive and aware datetimes)
    let created := normalizeUTC t.created_at
    let elapsed := now - created.utc
    if settings.ai_task_timeout < elapsed then
      { task := { t with
          status := TaskStatus.FAILED
          error := some "Task timed out"
          completed_at := some now }
        polled := false, downloads := [] }
    else if poll.status == some "completed" then
      match poll.outputs with
      | some (u :: _) =>
        { task := { t with
            result := download u
            status := TaskStatus.COMPLETED
            completed_at := some now }
          polled := true, downloads := [u] }
      | _ =>
        { task := { t with
            status := TaskStatus.COMPLETED
            completed_at := some now }
          polled := true, downloads := [] }
    else if poll.status == some "failed" then
      { task := { t with
          status := TaskStatus.FAILED
          error := poll.error
          completed_at := some now }
        polled := true, downloads := [] }
    else
      -- still processing, do nothing
      { task := t, polled := true, downloads := [] }

/-- The two exception classes caught by the per-task handler of
`process_ai_tasks`: `AIError` and `OSError`.  Any other exception would
propagate; the oracle type only offers these two. -/
inductive TaskErr where
  | ai (msg : String)
  | os (msg : String)
  deriving Repr, DecidableEq

/-- Error text recorded on the task: `str(e)` for `AIError`,
`f"I/O error: {e}"` for `OSError`. -/
def TaskErr.text : TaskErr → String
  | TaskErr.ai msg => msg
  | TaskErr.os msg => "I/O error: " ++ msg

/-- One iteration of the `for task in tasks` loop of `process_ai_tasks`:
`step` is the oracle for `_submit_task` / `_poll_task` on this task (its
updated value, or the exception it raises); a caught exception marks the task
FAILED with the error text recorded. -/
def handle_task (step : AITask → Except TaskErr AITask) (now : ℚ)
    (t : AITask) : AITask :=
  match step t with
  | Except.ok t2 => t2
  | Except.error e =>
    { t with status := TaskStatus.FAILED, error := some e.text, completed_at := some now }

/-- Batch outcome of one `process_ai_tasks` invocation: the task rows as
staged in the session, and how many commits were issued. -/
structure BatchResult where
  tasks : List AITask
  commits : Nat
  deriving Repr, DecidableEq

/-- `process_ai_tasks` (scheduler.py lines 321-357): loop over the PENDING and
PROCESSING batch with per-task exception handling, then a single commit. -/
def process_ai_tasks (step : AITask → Except TaskErr AITask) (now : ℚ)
    (tasks : List AITask) : BatchResult :=
  if tasks.isEmpty then { tasks := [], commits := 0 }
  else
    { tasks := tasks.foldl (fun acc t => acc ++ [handle_task step now t]) []
      commits := 1 }

/-! ## Broadcast sink and the post-commit tail of `snapshot_prices`
(`ConnectionManager.broadcast`, websocket.py lines 28-53; scheduler.py lines
244-261) -/

/-- An open websocket connection, identified opaquely. -/
structure Conn where
  cid : Nat
  deriving Repr, DecidableEq

/-- `ConnectionManager.broadcast`: sends one message to every connection;
`send c` is the oracle for `connection.send_json(message)` on connection `c`
(`Except.error` models a raised exception).  Every per-connection exception is
caught and the connection collected as dead and removed, so `broadcast` itself
never raises: its result is always `Except.ok` with the surviving
connections. -/
def broadcast (send : Conn → Except String Unit) (conns : List Conn) :
    Except String (List Conn) :=
  if conns.isEmpty then Except.ok conns
  else
    let dead := conns.filter (fun c => !(send c).toBool)
    Except.ok (conns.filter (fun c => !(dead.contains c)))

/-- A broadcast event message (opaque payload). -/
structure EventMsg where
  payload : String
  deriving Repr, DecidableEq

/-- Result of the post-commit tail of a `snapshot_prices` invocation. -/
structure TailResult where
  committed : SnapshotResult
  conns : List Conn
  cleanup_output : List StockSnapshot
  deriving Repr, DecidableEq

/-- The steps of `snapshot_prices` after `session.commit()` (scheduler.py
lines 248-261): broadcast the stock list, detect events, broadcast them, then
run retention cleanup.  `committed` is the already-committed store state;
`detect_events` and `market_day_events` are oracles for the event-detection
collaborator, modelled from the spec: `market_events.py` is absent from the
checked-in sources and the spec specifies the collaborator as a pure function
over the pre/post states.  An uncaught exception in the tail would surface as
`Except.error`. -/
def snapshot_tail (send : Conn → Except String Unit) (conns : List Conn)
    (committed : SnapshotResult) (snapshot_table : List StockSnapshot)
    (detect_events market_day_events : List EventMsg) (retention : Nat) :
    Except String TailResult := do
  -- Broadcast updated stocks via WebSocket
  let conns1 ← broadcast send conns
  -- Broadcast all events (per-stock events first, then market-day events)
  let conns2 ← (detect_events ++ market_day_events).foldlM
    (fun cs _ => broadcast send cs) conns1
  -- Cleanup old snapshots
  return { committed := committed
           conns := conns2
           cleanup_output := _cleanup_old_snapshots retention snapshot_table }

/-! ## Theorems -/

/-- Per-stock bound for one tick: the clamped price stays nonnegative and
moves by at most the uniform draw's bound. -/
theorem tickStock_bound (now : ℚ) {mult d : ℚ} {s : Stock} (hp : 0 ≤ s.price)
    (hd : |d| ≤ tick_max_delta mult s) :
    0 ≤ (tickStock now d s).price ∧
      |(tickStock now d s).price - s.price| ≤ 5 / 100 * s.price * mult := by
  have hb : |d| ≤ 5 / 100 * s.price * mult := by
    calc |d| ≤ s.price * (5 / 100) * mult := hd
    _ = 5 / 100 * s.price * mult := by ring
  constructor
  · exact le_max_left 0 _
  · show |max 0 (s.price + d) - s.price| ≤ _
    rcases le_or_lt 0 (s.price + d) with h | h
    · rw [max_eq_right h]
      simpa using hb
    · rw [max_eq_left h.le]
      have hnd : -d ≤ |d| := neg_le_abs d
      rw [abs_sub_comm, sub_zero, abs_of_nonneg hp]
      linarith

/-- Claim C1: for every price-tick invocation and every active stock processed
in it, the price after the tick is nonnegative and moves by at most
`0.05 * price_before * multiplier`, where the multiplier is the configured
after-hours volatility multiplier when the market is closed and `1.0` when it
is open.  The hypothesis on `deltas` is the range of
`random.uniform(-max_delta, max_delta)`. -/
theorem tick_prices_price_bounds
    (settings : Settings) (market_state : MarketState) (now : ℚ)
    (deltas : List ℚ) (stocks : List Stock)
    (hpos : ∀ s ∈ stocks, 0 ≤ s.price)
    (hd : List.Forall₂
      (fun d s => |d| ≤ tick_max_delta (volatility_multiplier settings market_state) s)
      deltas stocks) :
    List.Forall₂
      (fun before after => 0 ≤ after.price ∧
        |after.price - before.price| ≤
          5 / 100 * before.price * volatility_multiplier settings market_state)
      stocks (tick_prices now deltas stocks).1 := by
  unfold tick_prices
  induction hd with
  | nil => exact List.Forall₂.nil
  | cons hds htail ih =>
    refine List.Forall₂.cons ?_ ?_
    · exact tickStock_bound now (hpos _ (List.mem_cons_self _ _)) hds
    · exact ih fun s hs => hpos s (List.mem_cons_of_mem _ hs)

/-- Witness for C1: a concrete two-stock tick during after-hours with
multiplier `1/2`. -/
theorem tick_prices_price_bounds_witness :
    List.Forall₂
      (fun (before after : Stock) => 0 ≤ after.price ∧
        |after.price - before.price| ≤
          5 / 100 * before.price *
            volatility_multiplier
              ({ after_hours_volatility_multiplier := 1/2 } : Settings)
              ({ is_open := false } : MarketState))
      ([{ ticker := "ABCD", price := 100 }, { ticker := "WXYZ", price := 40 }] : List Stock)
      (tick_prices 7 [2, -1]
        ([{ ticker := "ABCD", price := 100 }, { ticker := "WXYZ", price := 40 }] : List Stock)).1 := by
  refine tick_prices_price_bounds
    ({ after_hours_volatility_multiplier := 1/2 } : Settings)
    ({ is_open := false } : MarketState) 7 _ _
    ?_ ?_
  · intro s hs
    fin_cases hs <;> norm_num
  · refine List.Forall₂.cons ?_ (List.Forall₂.cons ?_ List.Forall₂.nil) <;>
      norm_num [tick_max_delta, volatility_multiplier]

section KeyedIndex

variable {α κ : Type} [BEq κ] [LawfulBEq κ]

/-- In a list with pairwise-distinct keys, `findIdx` on key equality recovers
the position of the element itself. -/
theorem findIdx_key_eq_of_getElem (key : α → κ) {l : List α} {u : α} {j : Nat}
    (hnd : (l.map key).Nodup) (hj : j < l.length) (hju : l[j] = u) :
    l.findIdx (fun t => key t == key u) = j := by
  have hmem : u ∈ l := hju ▸ l.getElem_mem hj
  have hlt : l.findIdx (fun t => key t == key u) < l.length :=
    List.findIdx_lt_length_of_exists ⟨u, hmem, by simp⟩
  have hkey : key (l[l.findIdx (fun t => key t == key u)]) = key u := by
    have hp := List.findIdx_getElem (w := hlt)
    simpa using hp
  have hlt2 : l.findIdx (fun t => key t == key u) < (l.map key).length := by
    simpa using hlt
  have hj2 : j < (l.map key).length := by simpa using hj
  have hed : (l.map key)[l.findIdx (fun t => key t == key u)] = (l.map key)[j] := by
    rw [List.getElem_map, List.getElem_map, hkey, hju]
  exact hnd.getElem_inj_iff.mp hed

/-- Mapping each element of a key-distinct list to its own `findIdx` position
yields exactly `range`. -/
theorem map_findIdx_key_self (key : α → κ) {l : List α}
    (hnd : (l.map key).Nodup) :
    l.map (fun u => l.findIdx (fun t => key t == key u)) = List.range l.length := by
  apply List.ext_getElem
  · simp
  · intro i h1 h2
    have hi : i < l.length := by simpa using h1
    rw [List.getElem_map, List.getElem_range]
    exact findIdx_key_eq_of_getElem key hnd hi rfl

end KeyedIndex

/-- Assigning to every element of a permutation of a key-distinct list its
1-based position in that list is a permutation of `1..N`. -/
theorem map_rankWithin_perm {l m : List Stock}
    (hnd : (l.map Stock.ticker).Nodup) (hm : m ~ l) :
    m.map (rankWithin l) ~ List.range' 1 l.length := by
  have h1 : m.map (rankWithin l) ~ l.map (rankWithin l) := hm.map _
  have h2 : l.map (rankWithin l) = List.range' 1 l.length := by
    rw [List.range'_eq_map_range, ← map_findIdx_key_self Stock.ticker hnd,
      List.map_map]
    exact List.map_congr_left fun s _ => by
      simp [rankWithin, Nat.add_comm]
  rw [← h2]
  exact h1

/-- The saving pass keeps the ticker column. -/
theorem tickers_save (stocks : List Stock) :
    (save_previous_ranks stocks).map Stock.ticker = stocks.map Stock.ticker := by
  unfold save_previous_ranks
  rw [List.map_map]
  exact List.map_congr_left fun s _ => rfl

/-- The price-rank pass keeps the ticker column. -/
theorem tickers_wpr (l : List Stock) :
    (with_price_ranks l).map Stock.ticker = l.map Stock.ticker := by
  unfold with_price_ranks
  rw [List.map_map]
  exact List.map_congr_left fun s _ => rfl

/-- The change-rank pass keeps the ticker column. -/
theorem tickers_wcr (l : List Stock) :
    (with_change_ranks l).map Stock.ticker = l.map Stock.ticker := by
  unfold with_change_ranks
  rw [List.map_map]
  exact List.map_congr_left fun s _ => rfl

/-- The change-rank pass keeps the price-rank column. -/
theorem rank_map_wcr (l : List Stock) :
    (with_change_ranks l).map Stock.rank = l.map Stock.rank := by
  unfold with_change_ranks
  rw [List.map_map]
  exact List.map_congr_left fun s _ => rfl

/-- The price-rank column after the price-rank pass is the positional rank in
the price-sorted order. -/
theorem rank_map_wpr (l : List Stock) :
    (with_price_ranks l).map Stock.rank
      = (l.map (rankWithin (List.insertionSort priceDescLe l))).map some := by
  unfold with_price_ranks
  rw [List.map_map, List.map_map]
  exact List.map_congr_left fun s _ => rfl

/-- The change-rank column after the change-rank pass is the positional rank
in the change-sorted order. -/
theorem change_rank_map_wcr (l : List Stock) :
    (with_change_ranks l).map Stock.change_rank
      = (l.map (rankWithin (List.insertionSort changeLe l))).map some := by
  unfold with_change_ranks
  rw [List.map_map, List.map_map]
  exact List.map_congr_left fun s _ => rfl

/-- Claim C2: after the ranking pass of any snapshot invocation on active
stocks with pairwise-distinct tickers, the assigned `rank` values and the
assigned `change_rank` values each form a bijection onto `{1..N}` (stated as:
the multiset of assigned values is a permutation of `[1..N]`). -/
theorem update_rankings_bijection (stocks : List Stock)
    (_hne : stocks ≠ []) (hnd : (stocks.map Stock.ticker).Nodup) :
    (_update_rankings stocks).map Stock.rank ~
        (List.range' 1 stocks.length).map some ∧
      (_update_rankings stocks).map Stock.change_rank ~
        (List.range' 1 stocks.length).map some := by
  have ht1 : (save_previous_ranks stocks).map Stock.ticker = stocks.map Stock.ticker :=
    tickers_save stocks
  have ht2 : (with_price_ranks (save_previous_ranks stocks)).map Stock.ticker
      = stocks.map Stock.ticker := by
    rw [tickers_wpr, ht1]
  have hlen1 : (save_previous_ranks stocks).length = stocks.length :=
    List.length_map ..
  have hlen2 : (with_price_ranks (save_previous_ranks stocks)).length
      = stocks.length := by
    unfold with_price_ranks
    rw [List.length_map, hlen1]
  have hndP :
      ((List.insertionSort priceDescLe (save_previous_ranks stocks)).map
        Stock.ticker).Nodup := by
    have hp : (List.insertionSort priceDescLe (save_previous_ranks stocks)).map
          Stock.ticker
        ~ (save_previous_ranks stocks).map Stock.ticker :=
      (List.perm_insertionSort priceDescLe _).map _
    rw [hp.nodup_iff, ht1]
    exact hnd
  have hndC :
      ((List.insertionSort changeLe (with_price_ranks (save_previous_ranks stocks))).map
        Stock.ticker).Nodup := by
    have hp : (List.insertionSort changeLe
            (with_price_ranks (save_previous_ranks stocks))).map Stock.ticker
        ~ (with_price_ranks (save_previous_ranks stocks)).map Stock.ticker :=
      (List.perm_insertionSort changeLe _).map _
    rw [hp.nodup_iff, ht2]
    exact hnd
  constructor
  · -- rank values: assigned in the price-rank pass, kept by the change-rank pass
    unfold _update_rankings
    rw [rank_map_wcr, rank_map_wpr]
    apply List.Perm.map
    have hperm : save_previous_ranks stocks
        ~ List.insertionSort priceDescLe (save_previous_ranks stocks) :=
      (List.perm_insertionSort priceDescLe _).symm
    have h := map_rankWithin_perm hndP hperm
    rwa [List.length_insertionSort, hlen1] at h
  · -- change_rank values: assigned positionally from the change-sorted order
    unfold _update_rankings
    rw [change_rank_map_wcr]
    apply List.Perm.map
    have hperm : with_price_ranks (save_previous_ranks stocks)
        ~ List.insertionSort changeLe (with_price_ranks (save_previous_ranks stocks)) :=
      (List.perm_insertionSort changeLe _).symm
    have h := map_rankWithin_perm hndC hperm
    rwa [List.length_insertionSort, hlen2] at h

/-- Witness for C2: three concrete stocks, distinct tickers. -/
theorem update_rankings_bijection_witness :
    (_update_rankings
        ([{ ticker := "AAAA", price := 100 },
          { ticker := "BBBB", price := 120, reference_price := some 100 },
          { ticker := "CCCC", price := 90, reference_price := some 100 }] :
          List Stock)).map Stock.rank ~
        (List.range' 1 3).map some ∧
      (_update_rankings
        ([{ ticker := "AAAA", price := 100 },
          { ticker := "BBBB", price := 120, reference_price := some 100 },
          { ticker := "CCCC", price := 90, reference_price := some 100 }] :
          List Stock)).map Stock.change_rank ~
        (List.range' 1 3).map some :=
  update_rankings_bijection _ (by decide) (by decide)

/-- `keyLe` is reflexive. -/
theorem keyLe_refl (a : Nat × ℚ) : keyLe a a :=
  Or.inr ⟨rfl, le_refl _⟩

/-- The tickers of the change-sorted intermediate list are distinct whenever
the input tickers are. -/
theorem nodup_tickers_byChange (stocks : List Stock)
    (hnd : (stocks.map Stock.ticker).Nodup) :
    ((List.insertionSort changeLe (with_price_ranks (save_previous_ranks stocks))).map
      Stock.ticker).Nodup := by
  have hp : (List.insertionSort changeLe
        (with_price_ranks (save_previous_ranks stocks))).map Stock.ticker
      ~ (with_price_ranks (save_previous_ranks stocks)).map Stock.ticker :=
    (List.perm_insertionSort changeLe _).map _
  rw [hp.nodup_iff, tickers_wpr, tickers_save]
  exact hnd

/-- In the ranking-pass output, a stock whose change key is strictly below
another's receives a strictly smaller `change_rank`. -/
theorem change_rank_lt_of_key_lt {stocks : List Stock}
    (hnd : (stocks.map Stock.ticker).Nodup) {s t : Stock}
    (hs : s ∈ _update_rankings stocks) (ht : t ∈ _update_rankings stocks)
    (hlt : ¬ keyLe (change_sort_key t) (change_sort_key s)) :
    ∃ rs rt, s.change_rank = some rs ∧ t.change_rank = some rt ∧ rs < rt := by
  unfold _update_rankings with_change_ranks at hs ht
  obtain ⟨u, hu, hgu⟩ := List.mem_map.mp hs
  obtain ⟨v, hv, hgv⟩ := List.mem_map.mp ht
  subst hgu
  subst hgv
  have hperm :
      List.insertionSort changeLe (with_price_ranks (save_previous_ranks stocks))
        ~ with_price_ranks (save_previous_ranks stocks) :=
    List.perm_insertionSort changeLe _
  have hndC := nodup_tickers_byChange stocks hnd
  have huC : u ∈ List.insertionSort changeLe
      (with_price_ranks (save_previous_ranks stocks)) :=
    hperm.mem_iff.mpr hu
  have hvC : v ∈ List.insertionSort changeLe
      (with_price_ranks (save_previous_ranks stocks)) :=
    hperm.mem_iff.mpr hv
  obtain ⟨i, hi, hiu⟩ := List.mem_iff_getElem.mp huC
  obtain ⟨j, hj, hjv⟩ := List.mem_iff_getElem.mp hvC
  have hfi := findIdx_key_eq_of_getElem Stock.ticker hndC hi hiu
  have hfj := findIdx_key_eq_of_getElem Stock.ticker hndC hj hjv
  have hlt2 : ¬ keyLe (change_sort_key v) (change_sort_key u) := hlt
  have hij : i < j := by
    rcases Nat.lt_trichotomy i j with h | h | h
    · exact h
    · exfalso
      have huv : u = v := by
        subst h
        exact hiu.symm.trans hjv
      exact hlt2 (huv ▸ keyLe_refl (change_sort_key u))
    · exfalso
      have hsor := List.sorted_insertionSort changeLe
        (with_price_ranks (save_previous_ranks stocks))
      have hle := hsor.rel_get_of_lt
        (show (⟨j, hj⟩ : Fin _) < ⟨i, hi⟩ from h)
      rw [List.get_eq_getElem, List.get_eq_getElem, hjv, hiu] at hle
      exact hlt2 hle
  refine ⟨i + 1, j + 1, ?_, ?_, Nat.succ_lt_succ hij⟩
  · show some (rankWithin _ u) = _
    rw [rankWithin, hfi]
  · show some (rankWithin _ v) = _
    rw [rankWithin, hfj]

/-- The ranking pass does not change the number of stocks. -/
theorem length_update_rankings (stocks : List Stock) :
    (_update_rankings stocks).length = stocks.length := by
  unfold _update_rankings with_change_ranks with_price_ranks save_previous_ranks
  simp

/-- Claim C3: after the ranking pass, a stock with undefined percentage change
(no reference price) has a strictly greater `change_rank` than every stock
with a defined change, and among defined changes `change_rank` is ordered by
percentage change descending (a strictly larger change gives a strictly
smaller `change_rank`). -/
theorem update_rankings_change_rank_order (stocks : List Stock)
    (hnd : (stocks.map Stock.ticker).Nodup) :
    ∀ s ∈ _update_rankings stocks, ∀ t ∈ _update_rankings stocks,
      (s.percentage_change = none →
        ∀ pt, t.percentage_change = some pt →
          ∃ rs rt, s.change_rank = some rs ∧ t.change_rank = some rt ∧ rt < rs) ∧
      (∀ ps pt, s.percentage_change = some ps → t.percentage_change = some pt →
        pt < ps →
          ∃ rs rt, s.change_rank = some rs ∧ t.change_rank = some rt ∧ rs < rt) := by
  intro s hs t ht
  constructor
  · intro h1 pt h2
    have hkey : ¬ keyLe (change_sort_key s) (change_sort_key t) := by
      simp only [change_sort_key, h1, h2]
      simp [keyLe]
    obtain ⟨a, b, ha, hb, hab⟩ := change_rank_lt_of_key_lt hnd ht hs hkey
    exact ⟨b, a, hb, ha, hab⟩
  · intro ps pt h1 h2 hlt
    apply change_rank_lt_of_key_lt hnd hs ht
    simp only [change_sort_key, h1, h2]
    simp only [keyLe]
    intro hcon
    rcases hcon with hcon2 | ⟨_, hcon2⟩
    · exact absurd hcon2 (lt_irrefl 0)
    · linarith

/-- Witness for C3: two concrete stocks, the first without a reference price
(undefined change), the second 10 percent up. -/
theorem update_rankings_change_rank_order_witness :
    ∃ rs rt,
      ((_update_rankings
        ([{ ticker := "AAAA", price := 100 },
          { ticker := "BBBB", price := 110, reference_price := some 100 }] :
          List Stock)).get
        ⟨0, by rw [length_update_rankings]; decide⟩).change_rank = some rs ∧
      ((_update_rankings
        ([{ ticker := "AAAA", price := 100 },
          { ticker := "BBBB", price := 110, reference_price := some 100 }] :
          List Stock)).get
        ⟨1, by rw [length_update_rankings]; decide⟩).change_rank = some rt ∧
      rt < rs := by
  have h := update_rankings_change_rank_order
    ([{ ticker := "AAAA", price := 100 },
      { ticker := "BBBB", price := 110, reference_price := some 100 }] :
      List Stock)
    (by decide)
    _ (List.get_mem _ 0 (by rw [length_update_rankings]; decide))
    _ (List.get_mem _ 1 (by rw [length_update_rankings]; decide))
  exact h.1 (by
      simp [_update_rankings, with_change_ranks, with_price_ranks,
        save_previous_ranks, rankWithin, priceDescLe, changeLe, keyLe,
        change_sort_key, Stock.percentage_change, List.findIdx_cons])
    10 (by
      simp [_update_rankings, with_change_ranks, with_price_ranks,
        save_previous_ranks, rankWithin, priceDescLe, changeLe, keyLe,
        change_sort_key, Stock.percentage_change, List.findIdx_cons]
      norm_num)

/-- Claim C4: a snapshot invocation that starts Open with
`snapshot_count = snapshots_per_market_day - 1` increments `market_day_count`,
resets `snapshot_count` to 0, enters after-hours with
`after_hours_snapshot_count = 0`; and when `after_hours_snapshots = 0` the same
invocation immediately re-opens and resets every active stock's reference
baseline (`reference_price`, `reference_price_at`, `max_price`, `min_price`)
to its current price and the current time. -/
theorem snapshot_market_day_close (settings : Settings)
    (market_state : MarketState) (now : ℚ) (stocks : List Stock)
    (hopen : market_state.is_open = true)
    (hsc : market_state.snapshot_count + 1 = settings.snapshots_per_market_day) :
    (snapshot_prices settings market_state now stocks).market_state.market_day_count
        = market_state.market_day_count + 1 ∧
      (snapshot_prices settings market_state now stocks).market_state.snapshot_count
        = 0 ∧
      (snapshot_prices settings market_state now
          stocks).market_state.after_hours_snapshot_count = 0 ∧
      (settings.after_hours_snapshots ≠ 0 →
        (snapshot_prices settings market_state now stocks).market_state.is_open
          = false) ∧
      (settings.after_hours_snapshots = 0 →
        (snapshot_prices settings market_state now stocks).market_state.is_open
            = true ∧
          ∀ s ∈ (snapshot_prices settings market_state now stocks).stocks,
            s.reference_price = some s.price ∧ s.reference_price_at = some now ∧
              s.max_price = some s.price ∧ s.min_price = some s.price) := by
  have hcond : settings.snapshots_per_market_day ≤ market_state.snapshot_count + 1 :=
    le_of_eq hsc.symm
  unfold snapshot_prices
  by_cases h0 : settings.after_hours_snapshots = 0
  · simp only [hopen, Bool.not_true, Bool.and_false, Bool.false_eq_true, if_false,
      if_true, hcond, if_pos, h0, beq_self_eq_true]
    refine ⟨trivial, trivial, trivial, fun hc => absurd rfl hc, fun _ => ⟨trivial, ?_⟩⟩
    intro s hsmem
    obtain ⟨x, _, hx⟩ := List.mem_map.mp hsmem
    subst hx
    exact ⟨rfl, rfl, rfl, rfl⟩
  · have h0b : (settings.after_hours_snapshots == 0) = false := by
      simpa using h0
    simp only [hopen, Bool.not_true, Bool.and_false, Bool.false_eq_true, if_false,
      if_true, hcond, if_pos, h0b]
    exact ⟨trivial, trivial, trivial, fun _ => trivial, fun hc => absurd hc h0⟩

/-- Witness for C4: a concrete invocation closing market day 6 with no
after-hours period configured. -/
theorem snapshot_market_day_close_witness :
    (snapshot_prices
        ({ snapshots_per_market_day := 3, after_hours_snapshots := 0 } : Settings)
        ({ is_open := true, market_day_count := 5, snapshot_count := 2 } : MarketState)
        11 ([{ ticker := "ABCD", price := 50 }] : List Stock)).market_state.market_day_count
        = 6 ∧
      (snapshot_prices
        ({ snapshots_per_market_day := 3, after_hours_snapshots := 0 } : Settings)
        ({ is_open := true, market_day_count := 5, snapshot_count := 2 } : MarketState)
        11 ([{ ticker := "ABCD", price := 50 }] : List Stock)).market_state.is_open
        = true ∧
      ∀ s ∈ (snapshot_prices
        ({ snapshots_per_market_day := 3, after_hours_snapshots := 0 } : Settings)
        ({ is_open := true, market_day_count := 5, snapshot_count := 2 } : MarketState)
        11 ([{ ticker := "ABCD", price := 50 }] : List Stock)).stocks,
        s.reference_price = some s.price := by
  have h := snapshot_market_day_close
    ({ snapshots_per_market_day := 3, after_hours_snapshots := 0 } : Settings)
    ({ is_open := true, market_day_count := 5, snapshot_count := 2 } : MarketState)
    11 ([{ ticker := "ABCD", price := 50 }] : List Stock)
    (by rfl) (by rfl)
  obtain ⟨h1, _, _, _, h5⟩ := h
  obtain ⟨h5a, h5b⟩ := h5 rfl
  exact ⟨h1, h5a, fun s hs => (h5b s hs).1⟩

/-- Filtering a key-distinct list by "own `findIdx` position below `k`" keeps
exactly the first `k` elements. -/
theorem filter_findIdx_key_lt_eq_take {α κ : Type} [BEq κ] [LawfulBEq κ]
    (key : α → κ) :
    ∀ (S : List α) (k : Nat), ((S.map key).Nodup) →
      S.filter (fun r => decide (S.findIdx (fun x => key x == key r) < k))
        = S.take k
  | [], k, _ => by simp
  | a :: S2, k, hnd => by
    have hnds : (key a :: S2.map key).Nodup := by simpa using hnd
    have hnd2 : (S2.map key).Nodup := (List.nodup_cons.mp hnds).2
    have hmem : key a ∉ S2.map key := (List.nodup_cons.mp hnds).1
    have hstep : ∀ r ∈ S2,
        (a :: S2).findIdx (fun x => key x == key r)
          = S2.findIdx (fun x => key x == key r) + 1 := by
      intro r hr
      rw [List.findIdx_cons]
      have hne : (key a == key r) = false := by
        have h2 : key a ≠ key r := by
          intro he
          exact hmem (he ▸ List.mem_map_of_mem key hr)
        simpa using h2
      rw [hne]
      rfl
    cases k with
    | zero =>
      rw [List.take_zero]
      rw [List.filter_eq_nil_iff]
      intro r _
      simp
    | succ k2 =>
      have hfa : (a :: S2).findIdx (fun x => key x == key a) = 0 := by
        rw [List.findIdx_cons]
        simp
      rw [List.filter_cons]
      rw [show (decide ((a :: S2).findIdx (fun x => key x == key a) < k2 + 1))
          = true by rw [hfa]; simp]
      rw [if_pos rfl]
      rw [List.filter_congr (q := fun r =>
          decide (S2.findIdx (fun x => key x == key r) < k2)) ?_]
      · rw [filter_findIdx_key_lt_eq_take key S2 k2 hnd2]
        rfl
      · intro r hr
        rw [hstep r hr]
        simp [Nat.succ_lt_succ_iff]

/-- Filtering by a predicate that holds exactly on the first `i` positions
keeps exactly the first `i` elements. -/
theorem filter_of_getElem_decide {α : Type} (p : α → Bool) :
    ∀ (S : List α) (i : Nat), i ≤ S.length →
      (∀ j (h : j < S.length), p (S[j]) = decide (j < i)) →
      S.filter p = S.take i
  | [], i, _, _ => by simp
  | a :: S2, i, hi, hp => by
    cases i with
    | zero =>
      rw [List.take_zero, List.filter_eq_nil_iff]
      intro r hr
      obtain ⟨j, hj, hrj⟩ := List.mem_iff_getElem.mp hr
      have := hp j hj
      rw [hrj] at this
      rw [this]
      simp
    | succ i2 =>
      have hpa : p a = true := by
        have h0 := hp 0 (by simp)
        simpa using h0
      rw [List.filter_cons, hpa, if_pos rfl]
      rw [filter_of_getElem_decide p S2 i2 (by simpa using hi) ?_]
      · rfl
      · intro j hj
        have := hp (j + 1) (by simpa using Nat.succ_lt_succ hj)
        simpa [Nat.succ_lt_succ_iff] using this

/-- Per-ticker partitions of a filtered table are filtered partitions. -/
theorem ticker_rows_filter (q : StockSnapshot → Bool) (rows : List StockSnapshot)
    (t : String) :
    ticker_rows (rows.filter q) t = (ticker_rows rows t).filter q := by
  unfold ticker_rows
  rw [List.filter_filter, List.filter_filter]
  exact List.filter_congr fun a _ => Bool.and_comm _ _

/-- In a creation-time-distinct, id-distinct snapshot list, the position of a
row in the `created_at`-descending order is the number of rows created
strictly later. -/
theorem findIdx_sorted_eq_countP (M : List StockSnapshot) (r : StockSnapshot)
    (hid : (M.map StockSnapshot.id).Nodup)
    (hca : (M.map StockSnapshot.created_at).Nodup)
    (hr : r ∈ M) :
    (List.insertionSort createdDescLe M).findIdx (fun x => x.id == r.id)
      = M.countP (fun x => decide (r.created_at < x.created_at)) := by
  have hperm : List.insertionSort createdDescLe M ~ M :=
    List.perm_insertionSort createdDescLe M
  have hidS : ((List.insertionSort createdDescLe M).map StockSnapshot.id).Nodup := by
    rw [(hperm.map StockSnapshot.id).nodup_iff]
    exact hid
  have hcaS : ((List.insertionSort createdDescLe M).map
      StockSnapshot.created_at).Nodup := by
    rw [(hperm.map StockSnapshot.created_at).nodup_iff]
    exact hca
  have hrS : r ∈ List.insertionSort createdDescLe M := hperm.mem_iff.mpr hr
  obtain ⟨p, hpS, hpr⟩ := List.mem_iff_getElem.mp hrS
  have hfind := findIdx_key_eq_of_getElem StockSnapshot.id hidS hpS hpr
  have hsor := List.sorted_insertionSort createdDescLe M
  have hstrict : ∀ j q2 (hj : j < (List.insertionSort createdDescLe M).length)
      (hq : q2 < (List.insertionSort createdDescLe M).length), j < q2 →
      ((List.insertionSort createdDescLe M)[q2]).created_at
        < ((List.insertionSort createdDescLe M)[j]).created_at := by
    intro j q2 hj hq hlt
    have hle := hsor.rel_get_of_lt (show (⟨j, hj⟩ :
      Fin (List.insertionSort createdDescLe M).length) < ⟨q2, hq⟩ from hlt)
    rw [List.get_eq_getElem, List.get_eq_getElem] at hle
    have hne : ((List.insertionSort createdDescLe M)[q2]).created_at
        ≠ ((List.insertionSort createdDescLe M)[j]).created_at := by
      intro he
      have hj2 : j < ((List.insertionSort createdDescLe M).map
          StockSnapshot.created_at).length := by simpa using hj
      have hq2 : q2 < ((List.insertionSort createdDescLe M).map
          StockSnapshot.created_at).length := by simpa using hq
      have : ((List.insertionSort createdDescLe M).map StockSnapshot.created_at)[q2]
          = ((List.insertionSort createdDescLe M).map StockSnapshot.created_at)[j] := by
        rw [List.getElem_map, List.getElem_map, he]
      have := hcaS.getElem_inj_iff.mp this
      omega
    exact lt_of_le_of_ne hle hne
  have hpred : ∀ j (hj : j < (List.insertionSort createdDescLe M).length),
      (decide (r.created_at
          < ((List.insertionSort createdDescLe M)[j]).created_at)) = decide (j < p) := by
    intro j hj
    rcases Nat.lt_trichotomy j p with h | h | h
    · have := hstrict j p hj hpS h
      rw [hpr] at this
      simp [this, h]
    · subst h
      rw [hpr]
      simp
    · have := hstrict p j hpS hj h
      rw [hpr] at this
      have : ¬ (r.created_at
          < ((List.insertionSort createdDescLe M)[j]).created_at) := by
        exact not_lt_of_gt this
      simp [this]
      omega
  have hfilter := filter_of_getElem_decide
    (fun x => decide (r.created_at < x.created_at))
    (List.insertionSort createdDescLe M) p (le_of_lt hpS) hpred
  have hcount : (List.insertionSort createdDescLe M).countP
      (fun x => decide (r.created_at < x.created_at)) = p := by
    rw [List.countP_eq_length_filter, hfilter, List.length_take]
    omega
  rw [hfind, ← hperm.countP_eq, hcount]

/-- Claim C5: for each ticker independently, retention cleanup keeps exactly
the `retention` most-recently-created snapshot rows of that ticker (all of
them when there are at most `retention`) and deletes every other row of that
ticker; and re-running cleanup immediately afterwards deletes zero additional
rows.  Creation times are assumed pairwise distinct ("most-recently-created"
is ill-defined under ties; the spec leaves tie order arbitrary), and ids are
the primary key. -/
theorem cleanup_retention (retention : Nat) (rows : List StockSnapshot)
    (hid : (rows.map StockSnapshot.id).Nodup)
    (hca : (rows.map StockSnapshot.created_at).Nodup) :
    (∀ t, ticker_rows (_cleanup_old_snapshots retention rows) t
        ~ (List.insertionSort createdDescLe (ticker_rows rows t)).take retention) ∧
      _cleanup_old_snapshots retention (_cleanup_old_snapshots retention rows)
        = _cleanup_old_snapshots retention rows := by
  have hq : _cleanup_old_snapshots retention rows
      = rows.filter (fun r => decide (row_number rows r ≤ retention)) := rfl
  have hsub : ∀ (t : String), ticker_rows rows t <+ rows :=
    fun _ => List.filter_sublist rows
  have hidL : ∀ t, ((ticker_rows rows t).map StockSnapshot.id).Nodup :=
    fun t => ((hsub t).map StockSnapshot.id).nodup hid
  have hcaL : ∀ t, ((ticker_rows rows t).map StockSnapshot.created_at).Nodup :=
    fun t => ((hsub t).map StockSnapshot.created_at).nodup hca
  have hpermL : ∀ t, List.insertionSort createdDescLe (ticker_rows rows t)
      ~ ticker_rows rows t :=
    fun _ => List.perm_insertionSort createdDescLe _
  have hidS : ∀ t, ((List.insertionSort createdDescLe (ticker_rows rows t)).map
      StockSnapshot.id).Nodup := fun t => by
    rw [((hpermL t).map StockSnapshot.id).nodup_iff]
    exact hidL t
  have hstep : ∀ t, ticker_rows (_cleanup_old_snapshots retention rows) t
      = (ticker_rows rows t).filter
          (fun r => decide ((List.insertionSort createdDescLe
            (ticker_rows rows t)).findIdx (fun x => x.id == r.id) < retention)) := by
    intro t
    rw [hq, ticker_rows_filter]
    refine List.filter_congr ?_
    intro r hr
    have hticker : r.ticker = t := by
      have h2 := (List.mem_filter.mp hr).2
      simpa using h2
    rw [row_number, hticker]
    rw [decide_eq_decide]
    omega
  constructor
  · intro t
    rw [hstep t]
    refine ((hpermL t).symm.filter _).trans ?_
    rw [filter_findIdx_key_lt_eq_take StockSnapshot.id _ retention (hidS t)]
  · show (_cleanup_old_snapshots retention rows).filter _
        = _cleanup_old_snapshots retention rows
    apply List.filter_eq_self.mpr
    intro r hr
    have hrrows : r ∈ rows := by
      rw [hq] at hr
      exact (List.mem_filter.mp hr).1
    have hrn : row_number rows r ≤ retention := by
      rw [hq] at hr
      have h2 := (List.mem_filter.mp hr).2
      exact of_decide_eq_true h2
    have hrL : r ∈ ticker_rows rows r.ticker :=
      List.mem_filter.mpr ⟨hrrows, by simp⟩
    have hrL2 : r ∈ ticker_rows (_cleanup_old_snapshots retention rows) r.ticker :=
      List.mem_filter.mpr ⟨hr, by simp⟩
    have hsubL2 : ticker_rows (_cleanup_old_snapshots retention rows) r.ticker
        <+ ticker_rows rows r.ticker := by
      rw [hstep r.ticker]
      exact List.filter_sublist _
    have hidL2 := (hsubL2.map StockSnapshot.id).nodup (hidL r.ticker)
    have hcaL2 := (hsubL2.map StockSnapshot.created_at).nodup (hcaL r.ticker)
    have h1 := findIdx_sorted_eq_countP (ticker_rows rows r.ticker) r
      (hidL r.ticker) (hcaL r.ticker) hrL
    have h2 := findIdx_sorted_eq_countP
      (ticker_rows (_cleanup_old_snapshots retention rows) r.ticker) r
      hidL2 hcaL2 hrL2
    have hmono : (ticker_rows (_cleanup_old_snapshots retention rows)
          r.ticker).countP (fun x => decide (r.created_at < x.created_at))
        ≤ (ticker_rows rows r.ticker).countP
          (fun x => decide (r.created_at < x.created_at)) := by
      rw [hstep r.ticker, List.countP_filter]
      exact List.countP_mono_left (fun x _ h => by
        simp only [Bool.and_eq_true] at h
        exact h.1)
    show decide (row_number (_cleanup_old_snapshots retention rows) r ≤ retention)
        = true
    rw [decide_eq_true_eq]
    rw [row_number] at hrn ⊢
    omega

/-- Witness for C5: retention 5, eight rows of ticker "ABCD"; exactly the
five most-recently-created rows survive, and cleanup is idempotent there. -/
theorem cleanup_retention_witness :
    (∀ t, ticker_rows (_cleanup_old_snapshots 5
        [⟨1, "ABCD", 10, 1⟩, ⟨2, "ABCD", 11, 2⟩, ⟨3, "ABCD", 12, 3⟩,
         ⟨4, "ABCD", 13, 4⟩, ⟨5, "ABCD", 14, 5⟩, ⟨6, "ABCD", 15, 6⟩,
         ⟨7, "ABCD", 16, 7⟩, ⟨8, "ABCD", 17, 8⟩]) t
        ~ (List.insertionSort createdDescLe (ticker_rows
            [⟨1, "ABCD", 10, 1⟩, ⟨2, "ABCD", 11, 2⟩, ⟨3, "ABCD", 12, 3⟩,
             ⟨4, "ABCD", 13, 4⟩, ⟨5, "ABCD", 14, 5⟩, ⟨6, "ABCD", 15, 6⟩,
             ⟨7, "ABCD", 16, 7⟩, ⟨8, "ABCD", 17, 8⟩] t)).take 5) ∧
      _cleanup_old_snapshots 5 (_cleanup_old_snapshots 5
        [⟨1, "ABCD", 10, 1⟩, ⟨2, "ABCD", 11, 2⟩, ⟨3, "ABCD", 12, 3⟩,
         ⟨4, "ABCD", 13, 4⟩, ⟨5, "ABCD", 14, 5⟩, ⟨6, "ABCD", 15, 6⟩,
         ⟨7, "ABCD", 16, 7⟩, ⟨8, "ABCD", 17, 8⟩])
        = _cleanup_old_snapshots 5
        [⟨1, "ABCD", 10, 1⟩, ⟨2, "ABCD", 11, 2⟩, ⟨3, "ABCD", 12, 3⟩,
         ⟨4, "ABCD", 13, 4⟩, ⟨5, "ABCD", 14, 5⟩, ⟨6, "ABCD", 15, 6⟩,
         ⟨7, "ABCD", 16, 7⟩, ⟨8, "ABCD", 17, 8⟩] :=
  cleanup_retention 5 _ (by simp) (by norm_num)

/-- Claim C6: `generate_text` attempts the primary provider iff it is
configured and not skipped by the force-fallback flag; on primary failure the
secondary is attempted iff configured and the primary error is recorded; if
the primary throws and the secondary succeeds the secondary's result is
returned with no error; if no provider was attempted the call fails with the
"not configured" error; if all attempted providers failed it fails with an
aggregated error listing each attempted provider's failure. -/
theorem generate_text_policy (settings : Settings)
    (atlas google : Except String String) :
    ("atlascloud" ∈ (generate_text settings atlas google).attempted ↔
      (settings.force_google_ai = false ∧
        truthy settings.atlascloud_api_key = true)) ∧
    (∀ e, settings.force_google_ai = false →
      truthy settings.atlascloud_api_key = true →
      atlas = Except.error e →
      ("google" ∈ (generate_text settings atlas google).attempted ↔
        truthy settings.google_ai_api_key = true)) ∧
    (∀ e r, settings.force_google_ai = false →
      truthy settings.atlascloud_api_key = true →
      atlas = Except.error e →
      truthy settings.google_ai_api_key = true →
      google = Except.ok r →
      (generate_text settings atlas google).outcome = Except.ok r) ∧
    ((generate_text settings atlas google).attempted = [] →
      (generate_text settings atlas google).outcome
        = Except.error "No AI providers configured (check API keys in .env)") ∧
    (∀ e e2, settings.force_google_ai = false →
      truthy settings.atlascloud_api_key = true →
      atlas = Except.error e →
      truthy settings.google_ai_api_key = true →
      google = Except.error e2 →
      (generate_text settings atlas google).outcome
        = Except.error ("All AI providers failed: "
            ++ String.intercalate "; " ["AtlasCloud: " ++ e, "Google AI: " ++ e2])) ∧
    (∀ e, settings.force_google_ai = false →
      truthy settings.atlascloud_api_key = true →
      atlas = Except.error e →
      truthy settings.google_ai_api_key = false →
      (generate_text settings atlas google).outcome
        = Except.error ("All AI providers failed: "
            ++ String.intercalate "; " ["AtlasCloud: " ++ e])) ∧
    (∀ e2, (settings.force_google_ai = true ∨
        truthy settings.atlascloud_api_key = false) →
      truthy settings.google_ai_api_key = true →
      google = Except.error e2 →
      (generate_text settings atlas google).outcome
        = Except.error ("All AI providers failed: "
            ++ String.intercalate "; " ["Google AI: " ++ e2])) := by
  cases hfg : settings.force_google_ai <;>
    cases hak : truthy settings.atlascloud_api_key <;>
      cases hgk : truthy settings.google_ai_api_key <;>
        cases atlas <;> cases google <;>
          simp [generate_text, generate_text_failure, hfg, hak, hgk]

/-- Witness for C6: primary configured and failing, secondary configured and
succeeding: the secondary's text is returned. -/
theorem generate_text_policy_witness :
    (generate_text
        ({ atlascloud_api_key := some "k", google_ai_api_key := some "g" } : Settings)
        (Except.error "boom") (Except.ok "text")).outcome = Except.ok "text" :=
  (generate_text_policy
    ({ atlascloud_api_key := some "k", google_ai_api_key := some "g" } : Settings)
    (Except.error "boom") (Except.ok "text")).2.2.1 "boom" "text"
    rfl rfl rfl rfl rfl

/-- Claim C7: a PROCESSING task with an external id whose elapsed time since
creation (naive `created_at` normalized to UTC) strictly exceeds the
configured timeout is marked FAILED with the timeout error and gets
`completed_at`, and the provider is not polled — for every possible provider
answer, including "processing". -/
theorem poll_task_timeout (settings : Settings) (now : ℚ) (poll : ProviderPoll)
    (download : String → Option String) (t : AITask)
    (_hstatus : t.status = TaskStatus.PROCESSING)
    (hext : truthy t.atlascloud_id = true)
    (htimeout : settings.ai_task_timeout < now - (normalizeUTC t.created_at).utc) :
    ((_poll_task settings now poll download t).task).status = TaskStatus.FAILED ∧
      ((_poll_task settings now poll download t).task).error
        = some "Task timed out" ∧
      ((_poll_task settings now poll download t).task).completed_at = some now ∧
      (_poll_task settings now poll download t).polled = false := by
  unfold _poll_task
  rw [hext]
  simp [htimeout]

/-- Witness for C7: timeout 60 seconds, naive creation time 0, polled at 61,
provider still reporting "processing". -/
theorem poll_task_timeout_witness :
    ((_poll_task ({ ai_task_timeout := 60 } : Settings) 61
        ({ status := some "processing", outputs := none, error := none } :
          ProviderPoll)
        (fun _ => none)
        ({ id := 7, task_type := TaskType.IMAGE, status := TaskStatus.PROCESSING,
           atlascloud_id := some "ext-1",
           created_at := { aware := false, utc := 0 } } : AITask)).task).status
        = TaskStatus.FAILED ∧
      ((_poll_task ({ ai_task_timeout := 60 } : Settings) 61
        ({ status := some "processing", outputs := none, error := none } :
          ProviderPoll)
        (fun _ => none)
        ({ id := 7, task_type := TaskType.IMAGE, status := TaskStatus.PROCESSING,
           atlascloud_id := some "ext-1",
           created_at := { aware := false, utc := 0 } } : AITask)).task).error
        = some "Task timed out" ∧
      ((_poll_task ({ ai_task_timeout := 60 } : Settings) 61
        ({ status := some "processing", outputs := none, error := none } :
          ProviderPoll)
        (fun _ => none)
        ({ id := 7, task_type := TaskType.IMAGE, status := TaskStatus.PROCESSING,
           atlascloud_id := some "ext-1",
           created_at := { aware := false, utc := 0 } } : AITask)).task).completed_at
        = some 61 ∧
      (_poll_task ({ ai_task_timeout := 60 } : Settings) 61
        ({ status := some "processing", outputs := none, error := none } :
          ProviderPoll)
        (fun _ => none)
        ({ id := 7, task_type := TaskType.IMAGE, status := TaskStatus.PROCESSING,
           atlascloud_id := some "ext-1",
           created_at := { aware := false, utc := 0 } } : AITask)).polled = false :=
  poll_task_timeout _ _ _ _ _ rfl rfl (by norm_num [normalizeUTC])

/-- Claim C10: a PROCESSING task with an external id, not timed out, whose
provider poll reports "completed" with an empty (or absent) output list, is
marked COMPLETED with `completed_at` set, its `result` field left unchanged,
and no download is attempted; it is not marked FAILED. -/
theorem poll_task_completed_empty_outputs (settings : Settings) (now : ℚ)
    (poll : ProviderPoll) (download : String → Option String) (t : AITask)
    (_hstatus : t.status = TaskStatus.PROCESSING)
    (hext : truthy t.atlascloud_id = true)
    (hnotimeout : ¬ settings.ai_task_timeout
      < now - (normalizeUTC t.created_at).utc)
    (hcompleted : poll.status = some "completed")
    (houtputs : poll.outputs = none ∨ poll.outputs = some []) :
    ((_poll_task settings now poll download t).task).status
        = TaskStatus.COMPLETED ∧
      ((_poll_task settings now poll download t).task).completed_at = some now ∧
      ((_poll_task settings now poll download t).task).result = t.result ∧
      ((_poll_task settings now poll download t).task).error = t.error ∧
      (_poll_task settings now poll download t).downloads = [] := by
  unfold _poll_task
  rw [hext]
  rcases houtputs with h | h <;>
    simp [hnotimeout, hcompleted, h]

/-- Witness for C10: a completed provider answer with an empty output list on
a never-downloaded task. -/
theorem poll_task_completed_empty_outputs_witness :
    ((_poll_task ({ ai_task_timeout := 60 } : Settings) 30
        ({ status := some "completed", outputs := some [], error := none } :
          ProviderPoll)
        (fun _ => none)
        ({ id := 9, task_type := TaskType.VIDEO, status := TaskStatus.PROCESSING,
           atlascloud_id := some "ext-2",
           created_at := { aware := true, utc := 0 } } : AITask)).task).status
        = TaskStatus.COMPLETED ∧
      ((_poll_task ({ ai_task_timeout := 60 } : Settings) 30
        ({ status := some "completed", outputs := some [], error := none } :
          ProviderPoll)
        (fun _ => none)
        ({ id := 9, task_type := TaskType.VIDEO, status := TaskStatus.PROCESSING,
           atlascloud_id := some "ext-2",
           created_at := { aware := true, utc := 0 } } : AITask)).task).completed_at
        = some 30 ∧
      ((_poll_task ({ ai_task_timeout := 60 } : Settings) 30
        ({ status := some "completed", outputs := some [], error := none } :
          ProviderPoll)
        (fun _ => none)
        ({ id := 9, task_type := TaskType.VIDEO, status := TaskStatus.PROCESSING,
           atlascloud_id := some "ext-2",
           created_at := { aware := true, utc := 0 } } : AITask)).task).result
        = none ∧
      ((_poll_task ({ ai_task_timeout := 60 } : Settings) 30
        ({ status := some "completed", outputs := some [], error := none } :
          ProviderPoll)
        (fun _ => none)
        ({ id := 9, task_type := TaskType.VIDEO, status := TaskStatus.PROCESSING,
           atlascloud_id := some "ext-2",
           created_at := { aware := true, utc := 0 } } : AITask)).task).error
        = none ∧
      (_poll_task ({ ai_task_timeout := 60 } : Settings) 30
        ({ status := some "completed", outputs := some [], error := none } :
          ProviderPoll)
        (fun _ => none)
        ({ id := 9, task_type := TaskType.VIDEO, status := TaskStatus.PROCESSING,
           atlascloud_id := some "ext-2",
           created_at := { aware := true, utc := 0 } } : AITask)).downloads = [] :=
  poll_task_completed_empty_outputs _ _ _ _ _ rfl rfl (by norm_num [normalizeUTC])
    rfl (Or.inr rfl)

/-- The session loop accumulates exactly the per-task handler results in
order. -/
theorem foldl_append_eq_map {α β : Type} (f : α → β) (l : List α) :
    l.foldl (fun acc t => acc ++ [f t]) [] = l.map f := by
  suffices h : ∀ acc : List β, l.foldl (fun acc t => acc ++ [f t]) acc
      = acc ++ l.map f by
    simpa using h []
  induction l with
  | nil => intro acc; simp
  | cons a l2 ih =>
    intro acc
    simp only [List.foldl_cons, List.map_cons, ih]
    simp

/-- Claim C8: in one `process_ai_tasks` invocation, a caught provider
(`AIError`) or storage (`OSError`) failure on a task marks that task alone
FAILED with the error text recorded, every task in the batch is still
processed by its own handler, and exactly one commit is issued at the end of
the invocation. -/
theorem process_ai_tasks_isolation (step : AITask → Except TaskErr AITask)
    (now : ℚ) (tasks : List AITask) (hne : tasks ≠ []) :
    (process_ai_tasks step now tasks).commits = 1 ∧
      (process_ai_tasks step now tasks).tasks = tasks.map (handle_task step now) ∧
      (∀ t e, step t = Except.error e →
        (handle_task step now t).status = TaskStatus.FAILED ∧
          (handle_task step now t).error = some e.text ∧
          (handle_task step now t).completed_at = some now) ∧
      (∀ t t2, step t = Except.ok t2 → handle_task step now t = t2) := by
  have hisEmpty : tasks.isEmpty = false := by
    cases tasks with
    | nil => exact absurd rfl hne
    | cons a l => rfl
  unfold process_ai_tasks
  rw [hisEmpty]
  refine ⟨rfl, foldl_append_eq_map _ _, ?_, ?_⟩
  · intro t e he
    unfold handle_task
    rw [he]
    cases e <;> exact ⟨rfl, rfl, rfl⟩
  · intro t t2 he
    unfold handle_task
    rw [he]

/-- Witness for C8: a two-task batch where the first task's handler raises an
`AIError` and the second's an `OSError`. -/
theorem process_ai_tasks_isolation_witness :
    (process_ai_tasks
        (fun t => if t.id = 1 then Except.error (TaskErr.ai "provider down")
          else Except.error (TaskErr.os "disk full")) 5
        ([{ id := 1, task_type := TaskType.DESCRIPTION,
            status := TaskStatus.PENDING,
            created_at := { aware := true, utc := 0 } },
          { id := 2, task_type := TaskType.IMAGE,
            status := TaskStatus.PROCESSING,
            created_at := { aware := true, utc := 0 } }] : List AITask)).commits
        = 1 ∧
      (process_ai_tasks
        (fun t => if t.id = 1 then Except.error (TaskErr.ai "provider down")
          else Except.error (TaskErr.os "disk full")) 5
        ([{ id := 1, task_type := TaskType.DESCRIPTION,
            status := TaskStatus.PENDING,
            created_at := { aware := true, utc := 0 } },
          { id := 2, task_type := TaskType.IMAGE,
            status := TaskStatus.PROCESSING,
            created_at := { aware := true, utc := 0 } }] : List AITask)).tasks
        = ([{ id := 1, task_type := TaskType.DESCRIPTION,
              status := TaskStatus.PENDING,
              created_at := { aware := true, utc := 0 } },
            { id := 2, task_type := TaskType.IMAGE,
              status := TaskStatus.PROCESSING,
              created_at := { aware := true, utc := 0 } }] : List AITask).map
          (handle_task
            (fun t => if t.id = 1 then Except.error (TaskErr.ai "provider down")
              else Except.error (TaskErr.os "disk full")) 5) :=
  have h := process_ai_tasks_isolation
    (fun t => if t.id = 1 then Except.error (TaskErr.ai "provider down")
      else Except.error (TaskErr.os "disk full")) 5
    ([{ id := 1, task_type := TaskType.DESCRIPTION,
        status := TaskStatus.PENDING,
        created_at := { aware := true, utc := 0 } },
      { id := 2, task_type := TaskType.IMAGE,
        status := TaskStatus.PROCESSING,
        created_at := { aware := true, utc := 0 } }] : List AITask)
    (by simp)
  ⟨h.1, h.2.1⟩

/-- The broadcast sink never lets a send failure escape: the result is always
`ok` with the surviving connections. -/
theorem broadcast_ok (send : Conn → Except String Unit) (conns : List Conn) :
    ∃ cs, broadcast send conns = Except.ok cs := by
  unfold broadcast
  by_cases h : conns.isEmpty <;> simp [h]

/-- Broadcasting every event message in turn also never fails. -/
theorem foldlM_broadcast_ok (send : Conn → Except String Unit) :
    ∀ (l : List EventMsg) (cs : List Conn),
      ∃ cs2, l.foldlM (fun c _ => broadcast send c) cs = Except.ok cs2
  | [], cs => ⟨cs, rfl⟩
  | _ :: l, cs => by
    obtain ⟨cs1, h1⟩ := broadcast_ok send cs
    obtain ⟨cs2, h2⟩ := foldlM_broadcast_ok send l cs1
    refine ⟨cs2, ?_⟩
    rw [List.foldlM_cons, h1]
    simpa using h2

/-- Claim C9: whatever the per-connection broadcast outcomes are, the
post-commit tail of a snapshot invocation completes without error: the
committed stock/snapshot/market-state mutations are untouched and retention
cleanup still runs — the tail never rolls anything back. -/
theorem snapshot_tail_resilient (send : Conn → Except String Unit)
    (conns : List Conn) (committed : SnapshotResult)
    (snapshot_table : List StockSnapshot)
    (detect_events market_day_events : List EventMsg) (retention : Nat) :
    ∃ cs, snapshot_tail send conns committed snapshot_table detect_events
        market_day_events retention
      = Except.ok
          { committed := committed
            conns := cs
            cleanup_output := _cleanup_old_snapshots retention snapshot_table } := by
  obtain ⟨cs1, h1⟩ := broadcast_ok send conns
  obtain ⟨cs2, h2⟩ := foldlM_broadcast_ok send
    (detect_events ++ market_day_events) cs1
  refine ⟨cs2, ?_⟩
  unfold snapshot_tail
  simp only [Bind.bind]
  rw [h1]
  simp only [Except.bind]
  rw [h2]
  rfl

end SchoenMachtGeld
